import Mathlib

/-!
Shallow embedding of the round-based color-betting server
(`server/routes.ts`, `server/storage.ts`, `shared/schema.ts`).

Money amounts are `doublePrecision` in the schema and are modelled as `ℤ`;
timestamps (`Date`) are modelled as milliseconds `Nat`.  The in-memory maps of
`MemStorage` are modelled as lists in insertion order (`Map.values()` iterates
in insertion order; new entries are appended).  `createdAt`/`updatedAt`
timestamps and password hashing are irrelevant to every claim and omitted.
Randomness (`Math.floor(Math.random() * colors.length)`) is made explicit as a
`Fin 3` parameter.
-/

namespace ColorBet

/-- User row (`users` table in `shared/schema.ts`).  In `MemStorage.createUser`
the stored object is `{...insertUser, id, balance, createdAt, updatedAt}`, so
`role` is whatever the caller supplied (possibly absent): it is modelled as
`Option String`. -/
structure User where
  id : Nat
  username : String
  password : String
  email : Option String
  name : Option String
  balance : ℤ
  role : Option String
deriving Repr, DecidableEq

/-- Game round row (`game_rounds` table).  `result` is `""` while the outcome
is undecided (`createNewRound` passes `result: ""`). -/
structure GameRound where
  id : Nat
  roundNumber : Nat
  startTime : Nat
  endTime : Nat
  result : String
  multiplier : ℤ
deriving Repr, DecidableEq

/-- Bet row (`bets` table).  `profit` is nullable (`doublePrecision("profit")`
without `notNull`) and not part of `insertBetSchema`, hence `Option ℤ`. -/
structure Bet where
  id : Nat
  userId : Nat
  roundId : Nat
  color : String
  amount : ℤ
  potential : ℤ
  status : String
  profit : Option ℤ
deriving Repr, DecidableEq

/-- Transaction row (`transactions` table). -/
structure Transaction where
  id : Nat
  userId : Nat
  amount : ℤ
  type : String
  reference : String
  balanceBefore : ℤ
  balanceAfter : ℤ
deriving Repr, DecidableEq

/-- Argument of `MemStorage.createUser`: `InsertUser` is
`{username, password, email, name}` from `insertUserSchema` plus the optional
`role` and `balance` fields added on the type. -/
structure InsertUser where
  username : String
  password : String
  email : Option String
  name : Option String
  role : Option String
  balance : Option ℤ
deriving Repr, DecidableEq

/-- Argument of `MemStorage.createGameRound` (`insertGameRoundSchema`). -/
structure InsertGameRound where
  roundNumber : Nat
  startTime : Nat
  endTime : Nat
  result : String
  multiplier : ℤ
deriving Repr, DecidableEq

/-- Argument of `MemStorage.createBet` (`insertBetSchema`). -/
structure InsertBet where
  userId : Nat
  roundId : Nat
  color : String
  amount : ℤ
  potential : ℤ
  status : String
deriving Repr, DecidableEq

/-- Argument of `MemStorage.createTransaction` (`insertTransactionSchema`). -/
structure InsertTransaction where
  userId : Nat
  amount : ℤ
  type : String
  reference : String
  balanceBefore : ℤ
  balanceAfter : ℤ
deriving Repr, DecidableEq

/-- State of `MemStorage` (`server/storage.ts`): the four entity maps (as
lists in insertion order) and the id/round-number counters, all starting
at 1 in the constructor. -/
structure MemStorage where
  users : List User
  gameRounds : List GameRound
  bets : List Bet
  transactions : List Transaction
  userId : Nat
  roundId : Nat
  betId : Nat
  transactionId : Nat
  roundNumber : Nat
deriving Repr, DecidableEq

/-- The empty store with all counters at 1, as set up in the `MemStorage`
constructor before the default admin user is inserted. -/
def emptyStorage : MemStorage :=
  { users := [], gameRounds := [], bets := [], transactions := []
    userId := 1, roundId := 1, betId := 1, transactionId := 1, roundNumber := 1 }

/-- `MemStorage.getUser`: `this.users.get(id)`. -/
def getUser (s : MemStorage) (id : Nat) : Option User :=
  s.users.find? (fun u => decide (u.id = id))

/-- `MemStorage.createUser`.  The stored object is
`{ ...insertUser, id, balance, createdAt, updatedAt }` with the local
`const balance = 1000`; since the `balance` key follows the spread, it
overrides any `balance` carried by `insertUser`. -/
def createUser (s : MemStorage) (insertUser : InsertUser) : MemStorage × User :=
  let id := s.userId
  let balance : ℤ := 1000
  let user : User :=
    { id := id, username := insertUser.username, password := insertUser.password
      email := insertUser.email, name := insertUser.name
      balance := balance, role := insertUser.role }
  ({ s with users := s.users ++ [user], userId := s.userId + 1 }, user)

/-- `MemStorage.updateUser`: merges the partial update into the stored user
(no-op when the id is absent).  The partial update `{...user, ...updates}` is
modelled as an update function applied to the stored row. -/
def updateUser (s : MemStorage) (id : Nat) (f : User → User) : MemStorage :=
  { s with users := s.users.map (fun u => if u.id = id then f u else u) }

/-- `MemStorage.createGameRound`.  `if (!insertRound.roundNumber)` treats a
round number of `0` as falsy and substitutes the internal counter. -/
def createGameRound (s : MemStorage) (ins : InsertGameRound) : MemStorage × GameRound :=
  let id := s.roundId
  let rn := if ins.roundNumber = 0 then s.roundNumber else ins.roundNumber
  let nextRoundNumber := if ins.roundNumber = 0 then s.roundNumber + 1 else s.roundNumber
  let round : GameRound :=
    { id := id, roundNumber := rn, startTime := ins.startTime, endTime := ins.endTime
      result := ins.result, multiplier := ins.multiplier }
  ({ s with gameRounds := s.gameRounds ++ [round], roundId := s.roundId + 1
            roundNumber := nextRoundNumber }, round)

/-- `MemStorage.getGameRound`. -/
def getGameRound (s : MemStorage) (id : Nat) : Option GameRound :=
  s.gameRounds.find? (fun r => decide (r.id = id))

/-- `MemStorage.getActiveGameRound`: first round with
`startTime <= now && endTime >= now` (bounds inclusive, result not examined). -/
def getActiveGameRound (s : MemStorage) (now : Nat) : Option GameRound :=
  s.gameRounds.find? (fun r => decide (r.startTime ≤ now ∧ now ≤ r.endTime))

/-- `MemStorage.updateGameRound`: merge a partial update into the stored round
(no-op when the id is absent). -/
def updateGameRound (s : MemStorage) (id : Nat) (f : GameRound → GameRound) : MemStorage :=
  { s with gameRounds := s.gameRounds.map (fun r => if r.id = id then f r else r) }

/-- `MemStorage.createBet`.  `profit` is not part of `InsertBet` and starts
unset. -/
def createBet (s : MemStorage) (ins : InsertBet) : MemStorage × Bet :=
  let id := s.betId
  let bet : Bet :=
    { id := id, userId := ins.userId, roundId := ins.roundId, color := ins.color
      amount := ins.amount, potential := ins.potential, status := ins.status
      profit := none }
  ({ s with bets := s.bets ++ [bet], betId := s.betId + 1 }, bet)

/-- `MemStorage.getBet`. -/
def getBet (s : MemStorage) (id : Nat) : Option Bet :=
  s.bets.find? (fun b => decide (b.id = id))

/-- `MemStorage.getBetsByRound`: all bets with the given `roundId`, in store
order. -/
def getBetsByRound (s : MemStorage) (roundId : Nat) : List Bet :=
  s.bets.filter (fun b => decide (b.roundId = roundId))

/-- `MemStorage.updateBet`: merge a partial update into the stored bet. -/
def updateBet (s : MemStorage) (id : Nat) (f : Bet → Bet) : MemStorage :=
  { s with bets := s.bets.map (fun b => if b.id = id then f b else b) }

/-- `MemStorage.createTransaction`. -/
def createTransaction (s : MemStorage) (ins : InsertTransaction) : MemStorage × Transaction :=
  let id := s.transactionId
  let tx : Transaction :=
    { id := id, userId := ins.userId, amount := ins.amount, type := ins.type
      reference := ins.reference, balanceBefore := ins.balanceBefore
      balanceAfter := ins.balanceAfter }
  ({ s with transactions := s.transactions ++ [tx], transactionId := s.transactionId + 1 }, tx)

/-- Convenience lookup: the stored balance of a user. -/
def userBalanceIn (s : MemStorage) (id : Nat) : Option ℤ :=
  (getUser s id).map (fun u => u.balance)

/-- Convenience lookup: the stored status of a bet. -/
def betStatusIn (s : MemStorage) (id : Nat) : Option String :=
  (getBet s id).map (fun b => b.status)

/-- Convenience lookup: the stored profit of a bet. -/
def betProfitIn (s : MemStorage) (id : Nat) : Option (Option ℤ) :=
  (getBet s id).map (fun b => b.profit)

/-- Convenience lookup: the stored result of a round. -/
def roundResultIn (s : MemStorage) (id : Nat) : Option String :=
  (getGameRound s id).map (fun r => r.result)

/-- Convenience lookup: the stored multiplier of a round. -/
def roundMultiplierIn (s : MemStorage) (id : Nat) : Option ℤ :=
  (getGameRound s id).map (fun r => r.multiplier)

/-! ## Wager intake: `POST /api/bets` (`server/routes.ts`) -/

/-- Request body of `POST /api/bets` after JSON decoding. -/
structure BetInput where
  roundId : Nat
  color : String
  amount : ℤ
deriving Repr, DecidableEq

/-- `betSchema` (`shared/schema.ts`): `color` must be one of the enum
`["red","green","violet"]` and `amount` must be positive.  `zod.parse` runs
before any of the handler's own checks. -/
def betSchemaValid (input : BetInput) : Bool :=
  (input.color == "red" || input.color == "green" || input.color == "violet")
    && decide (0 < input.amount)

/-- The distinct rejection responses of the `POST /api/bets` handler, in source
order of the checks that produce them. -/
inductive BetRejection where
  /-- `zod` validation failure (400 "Invalid input"). -/
  | invalidInput
  /-- 404 "User not found". -/
  | userNotFound
  /-- 400 "Insufficient balance". -/
  | insufficientBalance
  /-- 404 "Game round not found". -/
  | roundNotFound
  /-- 400 "Betting for this round has ended" (when `now >= round.endTime`). -/
  | bettingEnded
deriving Repr, DecidableEq

/-- The `POST /api/bets` handler body.  Checks run in source order: schema
parse, user lookup, balance, round lookup, end-time; only then are the bet,
the balance debit and the `bet` transaction recorded.  The returned store is
unchanged on every rejection path because the handler returns before any
mutation. -/
def placeBet (s : MemStorage) (now : Nat) (userId : Nat) (input : BetInput) :
    MemStorage × Except BetRejection Bet :=
  if ¬ betSchemaValid input then (s, .error .invalidInput)
  else
    match getUser s userId with
    | none => (s, .error .userNotFound)
    | some user =>
      if user.balance < input.amount then (s, .error .insufficientBalance)
      else
        match getGameRound s input.roundId with
        | none => (s, .error .roundNotFound)
        | some round =>
          if round.endTime ≤ now then (s, .error .bettingEnded)
          else
            let multiplier : ℤ :=
              if input.color = "red" ∨ input.color = "green" then 2
              else if input.color = "violet" then 4
              else 1
            let potential := input.amount * multiplier
            let created := createBet s
              { userId := userId, roundId := input.roundId, color := input.color
                amount := input.amount, potential := potential, status := "pending" }
            let s1 := created.1
            let bet := created.2
            let balanceBefore := user.balance
            let balanceAfter := balanceBefore - input.amount
            let s2 := updateUser s1 userId (fun u => { u with balance := balanceAfter })
            let s3 := (createTransaction s2
              { userId := userId, amount := -input.amount, type := "bet"
                reference := "Bet #" ++ toString bet.id
                balanceBefore := balanceBefore, balanceAfter := balanceAfter }).1
            (s3, .ok bet)

/-! ## Settlement: `completeRound` (`server/routes.ts`) -/

/-- The `colors` array from which `completeRound` draws the result. -/
def colors : List String := ["red", "green", "violet"]

/-- Body of the `for (const bet of bets)` loop in `completeRound`, processing a
single fetched bet against the drawn `result`.  Non-pending bets are skipped;
bets whose user is missing are skipped; a winning bet credits the user with the
full stored `potential`, records a `win` transaction with before/after
snapshots, and is marked `won` with `profit = potential - amount`; a losing bet
is only marked `lost` with `profit = 0`. -/
def processBet (result : String) (roundNumber : Nat) (s : MemStorage) (bet : Bet) :
    MemStorage :=
  if bet.status ≠ "pending" then s
  else
    match getUser s bet.userId with
    | none => s
    | some user =>
      let won := bet.color = result
      let profit : ℤ := if won then bet.potential - bet.amount else 0
      let s1 :=
        if won then
          let newBalance := user.balance + bet.potential
          let su := updateUser s user.id (fun u => { u with balance := newBalance })
          (createTransaction su
            { userId := user.id, amount := bet.potential, type := "win"
              reference := "Round #" ++ toString roundNumber
              balanceBefore := user.balance, balanceAfter := newBalance }).1
        else s
      updateBet s1 bet.id (fun b =>
        { b with status := if won then "won" else "lost"
                 profit := some (if won then profit else 0) })

/-- `completeRound`: draws `result = colors[randomIndex]` (the random draw made
explicit), derives the multiplier from the drawn color, overwrites the round's
`result`/`multiplier` via `updateGameRound`, then processes every bet fetched
by `getBetsByRound`.  The pre-existing `round.result` is never consulted. -/
def completeRound (randomIndex : Fin 3) (s : MemStorage) (round : GameRound) :
    MemStorage :=
  let result := colors.get (Fin.cast rfl randomIndex)
  let multiplier : ℤ :=
    if result = "red" ∨ result = "green" then 2
    else if result = "violet" then 4
    else 1
  let s1 := updateGameRound s round.id
    (fun r => { r with result := result, multiplier := multiplier })
  let bets := getBetsByRound s1 round.id
  bets.foldl (processBet result round.roundNumber) s1

/-- `ROUND_DURATION_MS` in `setupGameEngine`. -/
def ROUND_DURATION_MS : Nat := 60000

/-- `createNewRound` in `setupGameEngine`: completes the currently active round
(if any) and then creates the next round, open for `ROUND_DURATION_MS`, with
empty result and zero multiplier. -/
def createNewRound (s : MemStorage) (now : Nat) (randomIndex : Fin 3) :
    MemStorage × GameRound :=
  let s1 :=
    match getActiveGameRound s now with
    | some activeRound => completeRound randomIndex s activeRound
    | none => s
  createGameRound s1
    { roundNumber := 0, startTime := now, endTime := now + ROUND_DURATION_MS
      result := "", multiplier := 0 }

/-- Successful path of `POST /api/admin/force-round`: overwrite the round's
`result` and `multiplier` via `updateGameRound`. -/
def forceRound (s : MemStorage) (roundId : Nat) (result : String) (multiplier : ℤ) :
    MemStorage :=
  updateGameRound s roundId (fun r => { r with result := result, multiplier := multiplier })

/-! ## The scheduler's step relation (`setupGameEngine`)

`setupGameEngine` runs an initial `createNewRound`, then a `setInterval` loop
firing `createNewRound` every `ROUND_DURATION_MS`, and each `createNewRound`
arms a `setTimeout` that fires `completeRound` on the created round
`ROUND_DURATION_MS` later.  Node timers never fire early, and a repeating
timer schedules its next tick relative to the previous fire, so two
consecutive `createNewRound` invocations are always at least
`ROUND_DURATION_MS` apart (the first interval tick is also at least that long
after the initial, awaited, `createNewRound`).  The step relation below keeps
exactly that timing constraint on `create` steps and is otherwise maximally
permissive: `timeout` steps may fire at any later instant on any round object
(covering stale closures and arbitrarily delayed timers), and concurrent
wager intake is interleaved freely. -/

/-- A snapshot of the running system: the store, the current instant, and the
instant of the most recent `createNewRound` invocation (if any). -/
structure SchedState where
  store : MemStorage
  clock : Nat
  lastCreate : Option Nat
deriving Repr

/-- One step of the game engine: a `createNewRound` tick (initial call or
interval tick, at least `ROUND_DURATION_MS` after the previous one), a
`completeRound` timeout (any time, any round object), or a wager-intake
request. -/
inductive SchedStep : SchedState → SchedState → Prop where
  | create : ∀ (σ : SchedState) (t : Nat) (randomIndex : Fin 3),
      σ.clock ≤ t →
      (∀ u, σ.lastCreate = some u → u + ROUND_DURATION_MS ≤ t) →
      SchedStep σ ⟨(createNewRound σ.store t randomIndex).1, t, some t⟩
  | timeout : ∀ (σ : SchedState) (t : Nat) (randomIndex : Fin 3) (r : GameRound),
      σ.clock ≤ t →
      SchedStep σ ⟨completeRound randomIndex σ.store r, t, σ.lastCreate⟩
  | wager : ∀ (σ : SchedState) (t : Nat) (uid : Nat) (input : BetInput),
      σ.clock ≤ t →
      SchedStep σ ⟨(placeBet σ.store t uid input).1, t, σ.lastCreate⟩

/-- States reachable by the game engine from server start: no rounds exist
before the first `createNewRound`. -/
inductive ReachableSched : SchedState → Prop where
  | init : ∀ (s : MemStorage), s.gameRounds = [] → ReachableSched ⟨s, 0, none⟩
  | step : ∀ {σ σ' : SchedState}, ReachableSched σ → SchedStep σ σ' → ReachableSched σ'

/-- A round is open at instant `t` when its outcome is still undecided and `t`
is strictly before its end time. -/
def openAt (t : Nat) (r : GameRound) : Bool :=
  decide (r.result = "" ∧ t < r.endTime)

/-- Inductive invariant of the scheduler: before the first `createNewRound` no
rounds exist; afterwards every stored round ends no later than
`ROUND_DURATION_MS` after the last `createNewRound` invocation, and at most
one stored round ends strictly after the current instant. -/
def schedInv (σ : SchedState) : Prop :=
  (σ.lastCreate = none → σ.store.gameRounds = []) ∧
  (∀ u, σ.lastCreate = some u → u ≤ σ.clock ∧
    ∀ r ∈ σ.store.gameRounds, r.endTime ≤ u + ROUND_DURATION_MS) ∧
  σ.store.gameRounds.countP (fun r => decide (σ.clock < r.endTime)) ≤ 1

/-! ## Concrete fixtures used by witnesses and counterexamples -/

/-- Fixture user: id 1 with balance 950 (1000 minus a 50 stake already
debited at intake). -/
def wAlice : User :=
  { id := 1, username := "alice", password := "pw", email := none, name := none
    balance := 950, role := some "user" }

/-- Fixture round: id 1, open on `[0, 60000)`, outcome undecided. -/
def wRound : GameRound :=
  { id := 1, roundNumber := 1, startTime := 0, endTime := 60000
    result := "", multiplier := 0 }

/-- Fixture bet: a pending 50-stake wager on violet (potential `50 * 4 = 200`)
referencing round 1 by user 1. -/
def wBet : Bet :=
  { id := 1, userId := 1, roundId := 1, color := "violet", amount := 50
    potential := 200, status := "pending", profit := none }

/-- Fixture store holding `wAlice`, `wRound` and `wBet`. -/
def wStore : MemStorage :=
  { users := [wAlice], gameRounds := [wRound], bets := [wBet], transactions := []
    userId := 2, roundId := 2, betId := 2, transactionId := 1, roundNumber := 2 }

/-- Fixture store for intake rejections: a user with balance 100 and no
rounds at all. -/
def cPoorStore : MemStorage :=
  { users := [{ id := 1, username := "bob", password := "pw", email := none
                name := none, balance := 100, role := some "user" }]
    gameRounds := [], bets := [], transactions := []
    userId := 2, roundId := 1, betId := 1, transactionId := 1, roundNumber := 1 }

/-- Fixture store with a round whose outcome is already assigned (result
"red") but whose end time is still in the future. -/
def cDecidedStore : MemStorage :=
  { users := [{ id := 1, username := "carol", password := "pw", email := none
                name := none, balance := 1000, role := some "user" }]
    gameRounds := [{ id := 1, roundNumber := 1, startTime := 0, endTime := 60000
                     result := "red", multiplier := 2 }]
    bets := [], transactions := []
    userId := 2, roundId := 2, betId := 1, transactionId := 1, roundNumber := 2 }

/-- The demo account requested at startup in `registerRoutes` (balance 50000
requested). -/
def demoInsert : InsertUser :=
  { username := "demo", password := "hashed-admin123", email := some "demo@example.com"
    name := some "Demo User", role := some "user", balance := some 50000 }

/-- The admin account requested at startup in `registerRoutes` (balance 10000
requested). -/
def adminInsert : InsertUser :=
  { username := "admin", password := "hashed-admin123", email := some "admin@example.com"
    name := some "System Admin", role := some "admin", balance := some 10000 }

/-! ## Store-level helper lemmas -/

@[simp] theorem updateUser_users (s : MemStorage) (i : Nat) (f : User → User) :
    (updateUser s i f).users = s.users.map (fun u => if u.id = i then f u else u) := rfl

@[simp] theorem updateUser_gameRounds (s : MemStorage) (i : Nat) (f : User → User) :
    (updateUser s i f).gameRounds = s.gameRounds := rfl

@[simp] theorem updateUser_bets (s : MemStorage) (i : Nat) (f : User → User) :
    (updateUser s i f).bets = s.bets := rfl

@[simp] theorem updateUser_transactions (s : MemStorage) (i : Nat) (f : User → User) :
    (updateUser s i f).transactions = s.transactions := rfl

@[simp] theorem updateBet_bets (s : MemStorage) (i : Nat) (f : Bet → Bet) :
    (updateBet s i f).bets = s.bets.map (fun b => if b.id = i then f b else b) := rfl

@[simp] theorem updateBet_users (s : MemStorage) (i : Nat) (f : Bet → Bet) :
    (updateBet s i f).users = s.users := rfl

@[simp] theorem updateBet_gameRounds (s : MemStorage) (i : Nat) (f : Bet → Bet) :
    (updateBet s i f).gameRounds = s.gameRounds := rfl

@[simp] theorem updateBet_transactions (s : MemStorage) (i : Nat) (f : Bet → Bet) :
    (updateBet s i f).transactions = s.transactions := rfl

@[simp] theorem updateGameRound_gameRounds (s : MemStorage) (i : Nat) (f : GameRound → GameRound) :
    (updateGameRound s i f).gameRounds = s.gameRounds.map (fun r => if r.id = i then f r else r) := rfl

@[simp] theorem updateGameRound_users (s : MemStorage) (i : Nat) (f : GameRound → GameRound) :
    (updateGameRound s i f).users = s.users := rfl

@[simp] theorem updateGameRound_bets (s : MemStorage) (i : Nat) (f : GameRound → GameRound) :
    (updateGameRound s i f).bets = s.bets := rfl

@[simp] theorem updateGameRound_transactions (s : MemStorage) (i : Nat) (f : GameRound → GameRound) :
    (updateGameRound s i f).transactions = s.transactions := rfl

@[simp] theorem createTransaction_fst_users (s : MemStorage) (ins : InsertTransaction) :
    ((createTransaction s ins).1).users = s.users := rfl

@[simp] theorem createTransaction_fst_bets (s : MemStorage) (ins : InsertTransaction) :
    ((createTransaction s ins).1).bets = s.bets := rfl

@[simp] theorem createTransaction_fst_gameRounds (s : MemStorage) (ins : InsertTransaction) :
    ((createTransaction s ins).1).gameRounds = s.gameRounds := rfl

@[simp] theorem createTransaction_fst_transactions (s : MemStorage) (ins : InsertTransaction) :
    ((createTransaction s ins).1).transactions =
      s.transactions ++ [(createTransaction s ins).2] := rfl

@[simp] theorem createTransaction_snd (s : MemStorage) (ins : InsertTransaction) :
    (createTransaction s ins).2 =
      { id := s.transactionId, userId := ins.userId, amount := ins.amount
        type := ins.type, reference := ins.reference
        balanceBefore := ins.balanceBefore, balanceAfter := ins.balanceAfter } := rfl

@[simp] theorem createBet_fst_users (s : MemStorage) (ins : InsertBet) :
    ((createBet s ins).1).users = s.users := rfl

@[simp] theorem createBet_fst_gameRounds (s : MemStorage) (ins : InsertBet) :
    ((createBet s ins).1).gameRounds = s.gameRounds := rfl

@[simp] theorem createBet_fst_transactions (s : MemStorage) (ins : InsertBet) :
    ((createBet s ins).1).transactions = s.transactions := rfl

@[simp] theorem createBet_fst_bets (s : MemStorage) (ins : InsertBet) :
    ((createBet s ins).1).bets = s.bets ++ [(createBet s ins).2] := rfl

@[simp] theorem createGameRound_fst_gameRounds (s : MemStorage) (ins : InsertGameRound) :
    ((createGameRound s ins).1).gameRounds =
      s.gameRounds ++ [(createGameRound s ins).2] := rfl

@[simp] theorem createGameRound_snd_endTime (s : MemStorage) (ins : InsertGameRound) :
    ((createGameRound s ins).2).endTime = ins.endTime := rfl

/-- Looking a user up after `updateUser` applies the update to the looked-up
row, provided the update does not change ids. -/
theorem getUser_updateUser (s : MemStorage) (i j : Nat) (f : User → User)
    (hf : ∀ u, (f u).id = u.id) :
    getUser (updateUser s i f) j =
      (getUser s j).map (fun u => if u.id = i then f u else u) := by
  unfold getUser updateUser
  rw [List.find?_map]
  have hp : ((fun u => decide (u.id = j)) ∘ fun u => if u.id = i then f u else u)
      = fun u => decide (u.id = j) := by
    funext u
    by_cases h : u.id = i <;> simp [Function.comp, h, hf]
  rw [hp]

/-- Looking a bet up after `updateBet` applies the update to the looked-up
row, provided the update does not change ids. -/
theorem getBet_updateBet (s : MemStorage) (i j : Nat) (f : Bet → Bet)
    (hf : ∀ b, (f b).id = b.id) :
    getBet (updateBet s i f) j =
      (getBet s j).map (fun b => if b.id = i then f b else b) := by
  unfold getBet updateBet
  rw [List.find?_map]
  have hp : ((fun b => decide (b.id = j)) ∘ fun b => if b.id = i then f b else b)
      = fun b => decide (b.id = j) := by
    funext b
    by_cases h : b.id = i <;> simp [Function.comp, h, hf]
  rw [hp]

theorem getUser_mem_id (s : MemStorage) (j : Nat) (u : User)
    (h : getUser s j = some u) : u.id = j := by
  have := List.find?_some h
  simpa using this

theorem getBet_mem_id (s : MemStorage) (j : Nat) (b : Bet)
    (h : getBet s j = some b) : b.id = j := by
  have := List.find?_some h
  simpa using this

@[simp] theorem getUser_updateBet (s : MemStorage) (i j : Nat) (f : Bet → Bet) :
    getUser (updateBet s i f) j = getUser s j := rfl

@[simp] theorem getUser_updateGameRound (s : MemStorage) (i j : Nat) (f : GameRound → GameRound) :
    getUser (updateGameRound s i f) j = getUser s j := rfl

@[simp] theorem getUser_createTransaction (s : MemStorage) (ins : InsertTransaction) (j : Nat) :
    getUser ((createTransaction s ins).1) j = getUser s j := rfl

@[simp] theorem getBet_updateUser (s : MemStorage) (i j : Nat) (f : User → User) :
    getBet (updateUser s i f) j = getBet s j := rfl

@[simp] theorem getBet_updateGameRound (s : MemStorage) (i j : Nat) (f : GameRound → GameRound) :
    getBet (updateGameRound s i f) j = getBet s j := rfl

@[simp] theorem getBet_createTransaction (s : MemStorage) (ins : InsertTransaction) (j : Nat) :
    getBet ((createTransaction s ins).1) j = getBet s j := rfl

/-! ## Case analysis of the settlement loop body -/

/-- Loop body, skip case: a bet that is not pending is left untouched. -/
theorem processBet_skip (result : String) (rn : Nat) (s : MemStorage) (bet : Bet)
    (h : bet.status ≠ "pending") : processBet result rn s bet = s := by
  simp [processBet, h]

/-- Loop body, missing-user case: the bet is skipped entirely (and stays
pending). -/
theorem processBet_no_user (result : String) (rn : Nat) (s : MemStorage) (bet : Bet)
    (hp : bet.status = "pending") (hu : getUser s bet.userId = none) :
    processBet result rn s bet = s := by
  simp [processBet, hp, hu]

/-- Loop body, losing case: only the bet row is updated, to status `lost` and
profit `0`. -/
theorem processBet_lost (result : String) (rn : Nat) (s : MemStorage) (bet : Bet)
    (user : User) (hp : bet.status = "pending") (hu : getUser s bet.userId = some user)
    (hc : ¬ bet.color = result) :
    processBet result rn s bet =
      updateBet s bet.id (fun b => { b with status := "lost", profit := some 0 }) := by
  simp [processBet, hp, hu, hc]

/-- Loop body, winning case: the user is credited with the full stored
`potential`, a `win` transaction with before/after snapshots is appended, and
the bet row becomes `won` with profit `potential - amount`. -/
theorem processBet_won (result : String) (rn : Nat) (s : MemStorage) (bet : Bet)
    (user : User) (hp : bet.status = "pending") (hu : getUser s bet.userId = some user)
    (hc : bet.color = result) :
    processBet result rn s bet =
      updateBet
        ((createTransaction
            (updateUser s user.id (fun u => { u with balance := user.balance + bet.potential }))
            { userId := user.id, amount := bet.potential, type := "win"
              reference := "Round #" ++ toString rn
              balanceBefore := user.balance
              balanceAfter := user.balance + bet.potential }).1)
        bet.id
        (fun b => { b with status := "won", profit := some (bet.potential - bet.amount) }) := by
  simp [processBet, hp, hu, hc]

/-- The settlement loop body never touches the rounds table. -/
theorem processBet_gameRounds (result : String) (rn : Nat) (s : MemStorage) (bet : Bet) :
    (processBet result rn s bet).gameRounds = s.gameRounds := by
  by_cases hp : bet.status = "pending"
  · cases hu : getUser s bet.userId with
    | none => rw [processBet_no_user result rn s bet hp hu]
    | some user =>
      by_cases hc : bet.color = result
      · rw [processBet_won result rn s bet user hp hu hc]; simp
      · rw [processBet_lost result rn s bet user hp hu hc]; simp
  · rw [processBet_skip result rn s bet hp]

/-- The settlement loop body preserves which users exist. -/
theorem getUser_isSome_processBet (result : String) (rn : Nat) (s : MemStorage) (bet : Bet)
    (j : Nat) :
    (getUser (processBet result rn s bet) j).isSome = (getUser s j).isSome := by
  by_cases hp : bet.status = "pending"
  · cases hu : getUser s bet.userId with
    | none => rw [processBet_no_user result rn s bet hp hu]
    | some user =>
      by_cases hc : bet.color = result
      · rw [processBet_won result rn s bet user hp hu hc]
        rw [getUser_updateBet, getUser_createTransaction,
          getUser_updateUser s user.id j
            (fun u => { u with balance := user.balance + bet.potential }) (fun u => rfl)]
        simp
      · rw [processBet_lost result rn s bet user hp hu hc]
        rfl
  · rw [processBet_skip result rn s bet hp]

/-- Folding the settlement loop over any list of bets never touches the rounds
table. -/
theorem foldl_processBet_gameRounds (result : String) (rn : Nat) (L : List Bet)
    (σ : MemStorage) :
    (L.foldl (processBet result rn) σ).gameRounds = σ.gameRounds := by
  induction L generalizing σ with
  | nil => rfl
  | cons b L ih => rw [List.foldl_cons, ih, processBet_gameRounds]

/-- Folding the settlement loop preserves which users exist. -/
theorem foldl_getUser_isSome (result : String) (rn : Nat) (L : List Bet)
    (σ : MemStorage) (j : Nat) :
    (getUser (L.foldl (processBet result rn) σ) j).isSome = (getUser σ j).isSome := by
  induction L generalizing σ with
  | nil => rfl
  | cons b L ih => rw [List.foldl_cons, ih, getUser_isSome_processBet]

/-- Settlement preserves the end time of every stored round (it only rewrites
`result` and `multiplier`). -/
theorem completeRound_endTimes (d : Fin 3) (s : MemStorage) (round : GameRound) :
    ((completeRound d s round).gameRounds).map (fun r => r.endTime) =
      s.gameRounds.map (fun r => r.endTime) := by
  unfold completeRound
  rw [foldl_processBet_gameRounds]
  simp only [updateGameRound_gameRounds, List.map_map]
  apply List.map_congr_left
  intro r _
  by_cases h : r.id = round.id <;> simp [h]

/-- Wager intake never touches the rounds table. -/
theorem placeBet_gameRounds (s : MemStorage) (now uid : Nat) (input : BetInput) :
    ((placeBet s now uid input).1).gameRounds = s.gameRounds := by
  unfold placeBet
  repeat' split
  all_goals rfl

/-! ## Case analysis of wager intake -/

@[simp] theorem updateUser_transactionId (s : MemStorage) (i : Nat) (f : User → User) :
    (updateUser s i f).transactionId = s.transactionId := rfl

@[simp] theorem createBet_transactionId (s : MemStorage) (ins : InsertBet) :
    ((createBet s ins).1).transactionId = s.transactionId := rfl

theorem betSchemaValid_color (input : BetInput) (h : betSchemaValid input = true) :
    input.color = "red" ∨ input.color = "green" ∨ input.color = "violet" := by
  simp [betSchemaValid] at h
  tauto

theorem betSchemaValid_amount (input : BetInput) (h : betSchemaValid input = true) :
    0 < input.amount := by
  simp [betSchemaValid] at h
  exact h.2

/-- Intake, schema-rejection case. -/
theorem placeBet_invalid (s : MemStorage) (now uid : Nat) (input : BetInput)
    (h0 : betSchemaValid input = false) :
    placeBet s now uid input = (s, .error .invalidInput) := by
  simp [placeBet, h0]

/-- Intake, unknown-user case. -/
theorem placeBet_noUser (s : MemStorage) (now uid : Nat) (input : BetInput)
    (h0 : betSchemaValid input = true) (hu : getUser s uid = none) :
    placeBet s now uid input = (s, .error .userNotFound) := by
  simp [placeBet, h0, hu]

/-- Intake, insufficient-balance case: checked before the round is even looked
up. -/
theorem placeBet_insufficient (s : MemStorage) (now uid : Nat) (input : BetInput)
    (user : User) (h0 : betSchemaValid input = true) (hu : getUser s uid = some user)
    (hbal : user.balance < input.amount) :
    placeBet s now uid input = (s, .error .insufficientBalance) := by
  simp [placeBet, h0, hu, hbal]

/-- Intake, missing-round case. -/
theorem placeBet_noRound (s : MemStorage) (now uid : Nat) (input : BetInput)
    (user : User) (h0 : betSchemaValid input = true) (hu : getUser s uid = some user)
    (hbal : ¬ user.balance < input.amount) (hr : getGameRound s input.roundId = none) :
    placeBet s now uid input = (s, .error .roundNotFound) := by
  simp [placeBet, h0, hu, hbal, hr]

/-- Intake, round-ended case (`now >= round.endTime`). -/
theorem placeBet_ended (s : MemStorage) (now uid : Nat) (input : BetInput)
    (user : User) (round : GameRound) (h0 : betSchemaValid input = true)
    (hu : getUser s uid = some user) (hbal : ¬ user.balance < input.amount)
    (hr : getGameRound s input.roundId = some round) (hend : round.endTime ≤ now) :
    placeBet s now uid input = (s, .error .bettingEnded) := by
  simp [placeBet, h0, hu, hbal, hr, hend]

/-- Intake, success case: all checks passed (the round's stored `result` is
never examined), the bet is created with `potential = amount * multiplier`
fixed from the color, the stake is debited, and one `bet` transaction is
appended. -/
theorem placeBet_ok (s : MemStorage) (now uid : Nat) (input : BetInput)
    (user : User) (round : GameRound) (h0 : betSchemaValid input = true)
    (hu : getUser s uid = some user) (hbal : ¬ user.balance < input.amount)
    (hr : getGameRound s input.roundId = some round) (hend : ¬ round.endTime ≤ now) :
    placeBet s now uid input =
      (let potential := input.amount *
          (if input.color = "red" ∨ input.color = "green" then 2
           else if input.color = "violet" then 4 else 1)
       let created := createBet s
         { userId := uid, roundId := input.roundId, color := input.color
           amount := input.amount, potential := potential, status := "pending" }
       let s2 := updateUser created.1 uid
         (fun u => { u with balance := user.balance - input.amount })
       let s3 := (createTransaction s2
         { userId := uid, amount := -input.amount, type := "bet"
           reference := "Bet #" ++ toString created.2.id
           balanceBefore := user.balance
           balanceAfter := user.balance - input.amount }).1
       (s3, Except.ok created.2)) := by
  simp [placeBet, h0, hu, hbal, hr, hend]

@[simp] theorem createBet_snd (s : MemStorage) (ins : InsertBet) :
    (createBet s ins).2 =
      { id := s.betId, userId := ins.userId, roundId := ins.roundId, color := ins.color
        amount := ins.amount, potential := ins.potential, status := ins.status
        profit := none } := rfl

/-- After a winning settlement step the stored bet row is the old row with
status `won` and profit `potential - amount`. -/
theorem processBet_won_getBet (result : String) (rn : Nat) (s : MemStorage) (bet : Bet)
    (user : User) (hp : bet.status = "pending") (hu : getUser s bet.userId = some user)
    (hc : bet.color = result) :
    getBet (processBet result rn s bet) bet.id =
      (getBet s bet.id).map (fun b =>
        { b with status := "won", profit := some (bet.potential - bet.amount) }) := by
  rw [processBet_won result rn s bet user hp hu hc]
  rw [getBet_updateBet]
  · rw [getBet_createTransaction, getBet_updateUser]
    cases hb : getBet s bet.id with
    | none => rfl
    | some b =>
      have : b.id = bet.id := getBet_mem_id s bet.id b hb
      simp [this]
  · intro b; rfl

/-- After a winning settlement step the user's stored balance is the old
balance plus the full stored `potential`. -/
theorem processBet_won_balance (result : String) (rn : Nat) (s : MemStorage) (bet : Bet)
    (user : User) (hp : bet.status = "pending") (hu : getUser s bet.userId = some user)
    (hc : bet.color = result) :
    userBalanceIn (processBet result rn s bet) bet.userId =
      some (user.balance + bet.potential) := by
  unfold userBalanceIn
  rw [processBet_won result rn s bet user hp hu hc]
  rw [getUser_updateBet, getUser_createTransaction]
  rw [getUser_updateUser]
  · rw [hu]
    have : user.id = bet.userId := getUser_mem_id s bet.userId user hu
    simp [this]
  · intro u; rfl

/-- A winning settlement step appends exactly one `win` transaction with the
before/after snapshot of the single balance mutation it performs. -/
theorem processBet_won_transactions (result : String) (rn : Nat) (s : MemStorage)
    (bet : Bet) (user : User) (hp : bet.status = "pending")
    (hu : getUser s bet.userId = some user) (hc : bet.color = result) :
    (processBet result rn s bet).transactions = s.transactions ++
      [{ id := s.transactionId, userId := user.id, amount := bet.potential
         type := "win", reference := "Round #" ++ toString rn
         balanceBefore := user.balance
         balanceAfter := user.balance + bet.potential }] := by
  rw [processBet_won result rn s bet user hp hu hc]
  rfl

/-- After a losing settlement step the stored bet row is the old row with
status `lost` and profit `0`. -/
theorem processBet_lost_getBet (result : String) (rn : Nat) (s : MemStorage) (bet : Bet)
    (user : User) (hp : bet.status = "pending") (hu : getUser s bet.userId = some user)
    (hc : ¬ bet.color = result) :
    getBet (processBet result rn s bet) bet.id =
      (getBet s bet.id).map (fun b => { b with status := "lost", profit := some 0 }) := by
  rw [processBet_lost result rn s bet user hp hu hc]
  rw [getBet_updateBet]
  · cases hb : getBet s bet.id with
    | none => rfl
    | some b =>
      have : b.id = bet.id := getBet_mem_id s bet.id b hb
      simp [this]
  · intro b; rfl

/-- A losing settlement step touches neither the users table nor the
transaction log. -/
theorem processBet_lost_frames (result : String) (rn : Nat) (s : MemStorage) (bet : Bet)
    (user : User) (hp : bet.status = "pending") (hu : getUser s bet.userId = some user)
    (hc : ¬ bet.color = result) :
    (processBet result rn s bet).users = s.users ∧
    (processBet result rn s bet).transactions = s.transactions := by
  rw [processBet_lost result rn s bet user hp hu hc]
  exact ⟨rfl, rfl⟩

/-! ## Claim theorems -/

/-- C10: every user created through `MemStorage.createUser` is stored with
balance exactly 1000 — the hard-coded default follows the spread of the
caller's input and overrides any requested balance — so the startup `demo`
account (requested balance 50000) and `admin` account (requested balance
10000) are both created with balance 1000. -/
theorem C10_createUser_balance_always_1000 :
    (∀ (s : MemStorage) (ins : InsertUser),
        ((createUser s ins).2).balance = 1000 ∧
        ((createUser s ins).1).users = s.users ++ [(createUser s ins).2]) ∧
    ((createUser emptyStorage demoInsert).2).balance = 1000 ∧
    ((createUser emptyStorage adminInsert).2).balance = 1000 :=
  ⟨fun _ _ => ⟨rfl, rfl⟩, rfl, rfl⟩

/-- C5: whenever wager intake rejects a request — invalid color or stake,
unknown user, insufficient balance, missing round, or a round whose end time
has passed — the returned store is exactly the input store: no balance change,
no wager record, no transaction. -/
theorem C5_rejected_intake_changes_nothing (s : MemStorage) (now uid : Nat)
    (input : BetInput) (e : BetRejection)
    (h : (placeBet s now uid input).2 = .error e) :
    (placeBet s now uid input).1 = s := by
  by_cases h0 : betSchemaValid input = true
  · cases hu : getUser s uid with
    | none => rw [placeBet_noUser s now uid input h0 hu]
    | some user =>
      by_cases hbal : user.balance < input.amount
      · rw [placeBet_insufficient s now uid input user h0 hu hbal]
      · cases hr : getGameRound s input.roundId with
        | none => rw [placeBet_noRound s now uid input user h0 hu hbal hr]
        | some round =>
          by_cases hend : round.endTime ≤ now
          · rw [placeBet_ended s now uid input user round h0 hu hbal hr hend]
          · rw [placeBet_ok s now uid input user round h0 hu hbal hr hend] at h
            simp at h
  · rw [placeBet_invalid s now uid input (by simpa using h0)]

/-- C5 witness: a concrete rejected wager (stake 5000 against balance 950)
leaves the concrete store untouched. -/
theorem C5_witness :
    (placeBet wStore 0 1 { roundId := 1, color := "red", amount := 5000 }).1 = wStore :=
  C5_rejected_intake_changes_nothing wStore 0 1
    { roundId := 1, color := "red", amount := 5000 } .insufficientBalance rfl

/-- C4 (amended): wager intake checks its preconditions in this order, each
with a distinct rejection: (1) color is one of red/green/violet and the stake
is positive (schema validation); (2) the user exists; (3) the user's balance
is at least the stake; (4) the round exists; (5) the current time is strictly
before the round's end time.  The round's outcome is never examined, and the
balance check precedes the round checks. -/
theorem C4_intake_check_order :
    (∀ (s : MemStorage) (now uid : Nat) (input : BetInput),
        betSchemaValid input = false →
        (placeBet s now uid input).2 = .error .invalidInput) ∧
    (∀ (s : MemStorage) (now uid : Nat) (input : BetInput) (user : User),
        betSchemaValid input = true → getUser s uid = some user →
        user.balance < input.amount →
        (placeBet s now uid input).2 = .error .insufficientBalance) ∧
    (∀ (s : MemStorage) (now uid : Nat) (input : BetInput) (user : User),
        betSchemaValid input = true → getUser s uid = some user →
        ¬ user.balance < input.amount → getGameRound s input.roundId = none →
        (placeBet s now uid input).2 = .error .roundNotFound) ∧
    (∀ (s : MemStorage) (now uid : Nat) (input : BetInput) (user : User)
        (round : GameRound),
        betSchemaValid input = true → getUser s uid = some user →
        ¬ user.balance < input.amount → getGameRound s input.roundId = some round →
        round.endTime ≤ now →
        (placeBet s now uid input).2 = .error .bettingEnded) ∧
    (∀ (s : MemStorage) (now uid : Nat) (input : BetInput) (user : User)
        (round : GameRound),
        betSchemaValid input = true → getUser s uid = some user →
        ¬ user.balance < input.amount → getGameRound s input.roundId = some round →
        ¬ round.endTime ≤ now →
        ∃ bet, (placeBet s now uid input).2 = .ok bet) := by
  refine ⟨?_, ?_, ?_, ?_, ?_⟩
  · intro s now uid input h0
    rw [placeBet_invalid s now uid input h0]
  · intro s now uid input user h0 hu hbal
    rw [placeBet_insufficient s now uid input user h0 hu hbal]
  · intro s now uid input user h0 hu hbal hr
    rw [placeBet_noRound s now uid input user h0 hu hbal hr]
  · intro s now uid input user round h0 hu hbal hr hend
    rw [placeBet_ended s now uid input user round h0 hu hbal hr hend]
  · intro s now uid input user round h0 hu hbal hr hend
    rw [placeBet_ok s now uid input user round h0 hu hbal hr hend]
    exact ⟨_, rfl⟩

/-- C4 counterexample to the claimed order: with balance 100, stake 500 and a
round id (99) that does not exist, the handler rejects with "insufficient
balance" — under the claimed order (round existence first) the rejection
would have to be the round-not-found one.  Moreover a round whose outcome is
already assigned (result "red") but whose end time lies ahead still accepts
wagers, contradicting the claimed "outcome undecided" part of the openness
check. -/
theorem C4_check_order_counterexample :
    (placeBet cPoorStore 0 1 { roundId := 99, color := "red", amount := 500 }).2 =
      .error .insufficientBalance ∧
    getGameRound cPoorStore 99 = none ∧
    (placeBet cDecidedStore 0 1 { roundId := 1, color := "red", amount := 10 }).2 =
      .ok { id := 1, userId := 1, roundId := 1, color := "red", amount := 10
            potential := 20, status := "pending", profit := none } ∧
    roundResultIn cDecidedStore 1 = some "red" :=
  ⟨rfl, rfl, rfl, rfl⟩

/-- C4 witness: each of the five checks observed on concrete inputs, in
order. -/
theorem C4_witness :
    (placeBet wStore 0 1 { roundId := 1, color := "blue", amount := 10 }).2 =
      .error .invalidInput ∧
    (placeBet wStore 0 1 { roundId := 1, color := "red", amount := 5000 }).2 =
      .error .insufficientBalance ∧
    (placeBet wStore 0 1 { roundId := 99, color := "red", amount := 10 }).2 =
      .error .roundNotFound ∧
    (placeBet wStore 60000 1 { roundId := 1, color := "red", amount := 10 }).2 =
      .error .bettingEnded ∧
    ∃ bet, (placeBet wStore 0 1 { roundId := 1, color := "red", amount := 10 }).2 =
      .ok bet :=
  ⟨C4_intake_check_order.1 wStore 0 1 _ rfl,
   C4_intake_check_order.2.1 wStore 0 1 _ wAlice rfl rfl (by decide),
   C4_intake_check_order.2.2.1 wStore 0 1 _ wAlice rfl rfl (by decide) rfl,
   C4_intake_check_order.2.2.2.1 wStore 60000 1 _ wAlice wRound rfl rfl (by decide)
     rfl (by decide),
   C4_intake_check_order.2.2.2.2 wStore 0 1 _ wAlice wRound rfl rfl (by decide)
     rfl (by decide)⟩

/-- C6: an accepted wager's potential payout is fixed at intake from the
chosen color alone — stake × 2 for red or green, stake × 4 for violet — and
settlement credits exactly the stored potential (its loop never consults any
round multiplier: a winning bet's balance credit is the stored `potential`
for every possible drawn result and round). -/
theorem C6_potential_fixed_at_intake :
    (∀ (s : MemStorage) (now uid : Nat) (input : BetInput) (bet : Bet),
        (placeBet s now uid input).2 = .ok bet →
        bet.amount = input.amount ∧ bet.color = input.color ∧
        bet.status = "pending" ∧
        bet.potential = input.amount *
          (if input.color = "red" ∨ input.color = "green" then 2 else 4)) ∧
    (∀ (result : String) (rn : Nat) (s : MemStorage) (bet : Bet) (user : User),
        bet.status = "pending" → getUser s bet.userId = some user →
        bet.color = result →
        userBalanceIn (processBet result rn s bet) bet.userId =
          some (user.balance + bet.potential)) := by
  constructor
  · intro s now uid input bet h
    by_cases h0 : betSchemaValid input = true
    · cases hu : getUser s uid with
      | none => rw [placeBet_noUser s now uid input h0 hu] at h; simp at h
      | some user =>
        by_cases hbal : user.balance < input.amount
        · rw [placeBet_insufficient s now uid input user h0 hu hbal] at h; simp at h
        · cases hr : getGameRound s input.roundId with
          | none => rw [placeBet_noRound s now uid input user h0 hu hbal hr] at h
                    simp at h
          | some round =>
            by_cases hend : round.endTime ≤ now
            · rw [placeBet_ended s now uid input user round h0 hu hbal hr hend] at h
              simp at h
            · rw [placeBet_ok s now uid input user round h0 hu hbal hr hend] at h
              simp only [createBet_snd, Except.ok.injEq] at h
              subst h
              refine ⟨rfl, rfl, rfl, ?_⟩
              by_cases hc : input.color = "red" ∨ input.color = "green"
              · simp [hc]
              · have hv : input.color = "violet" := by
                  rcases betSchemaValid_color input h0 with h1 | h1 | h1 <;> tauto
                simp [hc, hv]
    · rw [placeBet_invalid s now uid input (by simpa using h0)] at h; simp at h
  · intro result rn s bet user hp hu hc
    exact processBet_won_balance result rn s bet user hp hu hc

/-- C6 witness: the concrete scenarios — a 100-stake bet on red gets potential
200, a 50-stake bet on violet gets potential 200, and settling the winning
violet bet credits exactly its stored potential of 200. -/
theorem C6_witness :
    ({ id := 2, userId := 1, roundId := 1, color := "red", amount := 100
       potential := 200, status := "pending", profit := none } : Bet).potential =
        (100 : ℤ) * (if ("red" : String) = "red" ∨ ("red" : String) = "green" then 2 else 4) ∧
    userBalanceIn (processBet "violet" 1 wStore wBet) 1 = some (950 + 200) :=
  ⟨((C6_potential_fixed_at_intake.1 wStore 0 1
      { roundId := 1, color := "red", amount := 100 } _ rfl).2.2.2),
   C6_potential_fixed_at_intake.2 "violet" 1 wStore wBet wAlice rfl rfl rfl⟩

@[simp] theorem getUser_createBet (s : MemStorage) (ins : InsertBet) (j : Nat) :
    getUser ((createBet s ins).1) j = getUser s j := rfl

/-- An accepted wager leaves the user's stored balance at the old balance
minus the stake. -/
theorem placeBet_ok_balance (s : MemStorage) (now uid : Nat) (input : BetInput)
    (user : User) (round : GameRound) (h0 : betSchemaValid input = true)
    (hu : getUser s uid = some user) (hbal : ¬ user.balance < input.amount)
    (hr : getGameRound s input.roundId = some round) (hend : ¬ round.endTime ≤ now) :
    userBalanceIn ((placeBet s now uid input).1) uid =
      some (user.balance - input.amount) := by
  rw [placeBet_ok s now uid input user round h0 hu hbal hr hend]
  unfold userBalanceIn
  simp only [getUser_createTransaction]
  rw [getUser_updateUser]
  · rw [getUser_createBet, hu]
    have : user.id = uid := getUser_mem_id s uid user hu
    simp [this]
  · intro u; rfl

/-- An accepted wager appends exactly one `bet` transaction carrying the
before/after snapshot of the single balance debit it performs. -/
theorem placeBet_ok_transactions (s : MemStorage) (now uid : Nat) (input : BetInput)
    (user : User) (round : GameRound) (h0 : betSchemaValid input = true)
    (hu : getUser s uid = some user) (hbal : ¬ user.balance < input.amount)
    (hr : getGameRound s input.roundId = some round) (hend : ¬ round.endTime ≤ now) :
    ((placeBet s now uid input).1).transactions = s.transactions ++
      [{ id := s.transactionId, userId := uid, amount := -input.amount
         type := "bet", reference := "Bet #" ++ toString s.betId
         balanceBefore := user.balance
         balanceAfter := user.balance - input.amount }] := by
  rw [placeBet_ok s now uid input user round h0 hu hbal hr hend]
  rfl

/-- C1: settlement of a single pending wager whose owner exists: when its
color equals the drawn result, the stored row becomes `won` with profit
`potential - stake`, the owner's balance is credited by the full `potential`,
and one `win` transaction with accurate before/after snapshot is appended;
otherwise the row becomes `lost` with profit `0` and the users table and
transaction log are unchanged. -/
theorem C1_settlement_resolution (result : String) (rn : Nat) (s : MemStorage)
    (bet : Bet) (user : User)
    (hp : bet.status = "pending") (hu : getUser s bet.userId = some user)
    (hb : getBet s bet.id = some bet) :
    (bet.color = result →
      betStatusIn (processBet result rn s bet) bet.id = some "won" ∧
      betProfitIn (processBet result rn s bet) bet.id =
        some (some (bet.potential - bet.amount)) ∧
      userBalanceIn (processBet result rn s bet) bet.userId =
        some (user.balance + bet.potential) ∧
      (processBet result rn s bet).transactions = s.transactions ++
        [{ id := s.transactionId, userId := user.id, amount := bet.potential
           type := "win", reference := "Round #" ++ toString rn
           balanceBefore := user.balance
           balanceAfter := user.balance + bet.potential }]) ∧
    (¬ bet.color = result →
      betStatusIn (processBet result rn s bet) bet.id = some "lost" ∧
      betProfitIn (processBet result rn s bet) bet.id = some (some 0) ∧
      (processBet result rn s bet).users = s.users ∧
      (processBet result rn s bet).transactions = s.transactions) := by
  constructor
  · intro hc
    refine ⟨?_, ?_, processBet_won_balance result rn s bet user hp hu hc,
      processBet_won_transactions result rn s bet user hp hu hc⟩
    · unfold betStatusIn
      rw [processBet_won_getBet result rn s bet user hp hu hc, hb]
      rfl
    · unfold betProfitIn
      rw [processBet_won_getBet result rn s bet user hp hu hc, hb]
      rfl
  · intro hc
    obtain ⟨hus, htx⟩ := processBet_lost_frames result rn s bet user hp hu hc
    refine ⟨?_, ?_, hus, htx⟩
    · unfold betStatusIn
      rw [processBet_lost_getBet result rn s bet user hp hu hc, hb]
      rfl
    · unfold betProfitIn
      rw [processBet_lost_getBet result rn s bet user hp hu hc, hb]
      rfl

/-- C1 witness: the concrete winning violet wager ends `won` in the settled
store. -/
theorem C1_witness :
    betStatusIn (processBet "violet" 1 wStore wBet) 1 = some "won" :=
  ((C1_settlement_resolution "violet" 1 wStore wBet wAlice rfl rfl rfl).1 rfl).1

/-- C9: every transaction created by intake or settlement satisfies
`balanceAfter = balanceBefore + amount`, with `balanceBefore`/`balanceAfter`
equal to the user's stored balance immediately before/after that single
mutation, and each such step appends exactly one transaction; steps that do
not mutate a balance (losing or skipped wagers) append none and leave the
users table unchanged. -/
theorem C9_transaction_snapshots :
    (∀ (s : MemStorage) (now uid : Nat) (input : BetInput) (bet : Bet) (user : User),
        getUser s uid = some user →
        (placeBet s now uid input).2 = .ok bet →
        ∃ tx : Transaction,
          ((placeBet s now uid input).1).transactions = s.transactions ++ [tx] ∧
          tx.userId = uid ∧ tx.type = "bet" ∧ tx.amount = -input.amount ∧
          tx.balanceAfter = tx.balanceBefore + tx.amount ∧
          userBalanceIn s uid = some tx.balanceBefore ∧
          userBalanceIn ((placeBet s now uid input).1) uid = some tx.balanceAfter) ∧
    (∀ (result : String) (rn : Nat) (s : MemStorage) (bet : Bet) (user : User),
        bet.status = "pending" → getUser s bet.userId = some user →
        bet.color = result →
        ∃ tx : Transaction,
          (processBet result rn s bet).transactions = s.transactions ++ [tx] ∧
          tx.userId = bet.userId ∧ tx.type = "win" ∧ tx.amount = bet.potential ∧
          tx.balanceAfter = tx.balanceBefore + tx.amount ∧
          userBalanceIn s bet.userId = some tx.balanceBefore ∧
          userBalanceIn (processBet result rn s bet) bet.userId =
            some tx.balanceAfter) ∧
    (∀ (result : String) (rn : Nat) (s : MemStorage) (bet : Bet),
        (bet.status ≠ "pending" ∨ ¬ bet.color = result) →
        (processBet result rn s bet).transactions = s.transactions ∧
        (processBet result rn s bet).users = s.users) := by
  refine ⟨?_, ?_, ?_⟩
  · intro s now uid input bet user hu h
    by_cases h0 : betSchemaValid input = true
    · by_cases hbal : user.balance < input.amount
      · rw [placeBet_insufficient s now uid input user h0 hu hbal] at h; simp at h
      · cases hr : getGameRound s input.roundId with
        | none => rw [placeBet_noRound s now uid input user h0 hu hbal hr] at h
                  simp at h
        | some round =>
          by_cases hend : round.endTime ≤ now
          · rw [placeBet_ended s now uid input user round h0 hu hbal hr hend] at h
            simp at h
          · refine ⟨{ id := s.transactionId, userId := uid, amount := -input.amount
                      type := "bet", reference := "Bet #" ++ toString s.betId
                      balanceBefore := user.balance
                      balanceAfter := user.balance - input.amount },
              placeBet_ok_transactions s now uid input user round h0 hu hbal hr hend,
              rfl, rfl, rfl, sub_eq_add_neg user.balance input.amount, ?_, ?_⟩
            · unfold userBalanceIn; rw [hu]; rfl
            · exact placeBet_ok_balance s now uid input user round h0 hu hbal hr hend
    · rw [placeBet_invalid s now uid input (by simpa using h0)] at h; simp at h
  · intro result rn s bet user hp hu hc
    refine ⟨{ id := s.transactionId, userId := user.id, amount := bet.potential
              type := "win", reference := "Round #" ++ toString rn
              balanceBefore := user.balance
              balanceAfter := user.balance + bet.potential },
      processBet_won_transactions result rn s bet user hp hu hc,
      getUser_mem_id s bet.userId user hu, rfl, rfl, rfl, ?_,
      processBet_won_balance result rn s bet user hp hu hc⟩
    unfold userBalanceIn; rw [hu]; rfl
  · intro result rn s bet hcase
    by_cases hp : bet.status = "pending"
    · rcases hcase with hns | hc
      · exact absurd hp hns
      · cases hu : getUser s bet.userId with
        | none => rw [processBet_no_user result rn s bet hp hu]; exact ⟨rfl, rfl⟩
        | some user =>
          obtain ⟨hus, htx⟩ := processBet_lost_frames result rn s bet user hp hu hc
          exact ⟨htx, hus⟩
    · rw [processBet_skip result rn s bet hp]; exact ⟨rfl, rfl⟩

/-- C9 witness: settling the concrete winning violet wager appends one
consistent `win` transaction. -/
theorem C9_witness :
    ∃ tx : Transaction,
      (processBet "violet" 1 wStore wBet).transactions = wStore.transactions ++ [tx] ∧
      tx.userId = wBet.userId ∧ tx.type = "win" ∧ tx.amount = wBet.potential ∧
      tx.balanceAfter = tx.balanceBefore + tx.amount ∧
      userBalanceIn wStore wBet.userId = some tx.balanceBefore ∧
      userBalanceIn (processBet "violet" 1 wStore wBet) wBet.userId =
        some tx.balanceAfter :=
  C9_transaction_snapshots.2.1 "violet" 1 wStore wBet wAlice rfl rfl rfl

/-- Core induction for settlement completeness: folding the loop body over a
worklist `L` leaves no pending bet on round `rid` in the store, provided every
bet of the worklist has an existing user and every stored pending bet on the
round is covered by a pending entry of the worklist with the same id. -/
theorem foldl_processBet_no_pending (result : String) (rn : Nat) (rid : Nat)
    (L : List Bet) :
    ∀ (σ : MemStorage),
      (∀ b0 ∈ L, (getUser σ b0.userId).isSome) →
      (∀ b ∈ σ.bets, b.roundId = rid → b.status = "pending" →
        ∃ b1, b1 ∈ L ∧ b1.id = b.id ∧ b1.status = "pending") →
      ∀ b ∈ (L.foldl (processBet result rn) σ).bets, b.roundId = rid →
        b.status ≠ "pending" := by
  induction L with
  | nil =>
    intro σ _ hcover b hb hrid hpend
    rcases hcover b hb hrid hpend with ⟨b1, h1, _, _⟩
    exact absurd h1 (List.not_mem_nil b1)
  | cons b0 L ih =>
    intro σ husers hcover
    rw [List.foldl_cons]
    apply ih
    · intro b1 hb1
      rw [getUser_isSome_processBet]
      exact husers b1 (List.mem_cons_of_mem b0 hb1)
    · intro b hb hrid hpend
      by_cases hp : b0.status = "pending"
      · cases hu : getUser σ b0.userId with
        | none =>
          have hS := husers b0 (List.mem_cons_self b0 L)
          rw [hu] at hS
          simp at hS
        | some user =>
          by_cases hc : b0.color = result
          · rw [processBet_won result rn σ b0 user hp hu hc] at hb
            simp only [updateBet_bets, createTransaction_fst_bets, updateUser_bets] at hb
            rcases List.mem_map.mp hb with ⟨x, hx, hgx⟩
            by_cases hxid : x.id = b0.id
            · rw [if_pos hxid] at hgx
              rw [← hgx] at hpend
              simp at hpend
            · rw [if_neg hxid] at hgx
              subst hgx
              rcases hcover x hx hrid hpend with ⟨b1, hmem, hid, hpend1⟩
              rcases List.mem_cons.mp hmem with rfl | hmem1
              · exact absurd hid.symm hxid
              · exact ⟨b1, hmem1, hid, hpend1⟩
          · rw [processBet_lost result rn σ b0 user hp hu hc] at hb
            simp only [updateBet_bets] at hb
            rcases List.mem_map.mp hb with ⟨x, hx, hgx⟩
            by_cases hxid : x.id = b0.id
            · rw [if_pos hxid] at hgx
              rw [← hgx] at hpend
              simp at hpend
            · rw [if_neg hxid] at hgx
              subst hgx
              rcases hcover x hx hrid hpend with ⟨b1, hmem, hid, hpend1⟩
              rcases List.mem_cons.mp hmem with rfl | hmem1
              · exact absurd hid.symm hxid
              · exact ⟨b1, hmem1, hid, hpend1⟩
      · rw [processBet_skip result rn σ b0 hp] at hb
        rcases hcover b hb hrid hpend with ⟨b1, hmem, hid, hpend1⟩
        rcases List.mem_cons.mp hmem with rfl | hmem1
        · exact absurd hpend1 hp
        · exact ⟨b1, hmem1, hid, hpend1⟩

/-- C7: after `completeRound`, no bet referencing the round is still pending,
provided every bet of the round has an existing owner (true of every bet
created by wager intake, and users are never deleted). -/
theorem C7_no_pending_after_settlement (d : Fin 3) (s : MemStorage) (round : GameRound)
    (husers : ∀ b ∈ s.bets, b.roundId = round.id → (getUser s b.userId).isSome) :
    (completeRound d s round).bets.countP
      (fun b => decide (b.roundId = round.id ∧ b.status = "pending")) = 0 := by
  set res := colors.get (Fin.cast rfl d) with hres
  set s1 := updateGameRound s round.id (fun r =>
    { r with result := res
             multiplier := if res = "red" ∨ res = "green" then 2
               else if res = "violet" then 4 else 1 }) with hs1
  have hrw : completeRound d s round =
      (getBetsByRound s1 round.id).foldl (processBet res round.roundNumber) s1 := rfl
  have key : ∀ b ∈ (completeRound d s round).bets, b.roundId = round.id →
      b.status ≠ "pending" := by
    rw [hrw]
    apply foldl_processBet_no_pending res round.roundNumber round.id
      (getBetsByRound s1 round.id) s1
    · intro b0 hb0
      have hm := List.mem_filter.mp hb0
      have hbm : b0 ∈ s.bets := by
        have := hm.1
        rw [hs1] at this
        simpa using this
      have hrid : b0.roundId = round.id := of_decide_eq_true hm.2
      have := husers b0 hbm hrid
      rw [hs1]
      simpa using this
    · intro b hbm hrid hpend
      refine ⟨b, List.mem_filter.mpr ⟨hbm, decide_eq_true hrid⟩, rfl, hpend⟩
  rw [List.countP_eq_zero]
  intro b hb hp
  have hand := of_decide_eq_true hp
  exact key b hb hand.1 hand.2

/-- C7 witness: settling the concrete store leaves no pending bet on the
round. -/
theorem C7_witness :
    (completeRound 2 wStore wRound).bets.countP
      (fun b => decide (b.roundId = wRound.id ∧ b.status = "pending")) = 0 :=
  C7_no_pending_after_settlement 2 wStore wRound (by decide)

/-- C2 failing input: a round settled with drawn outcome violet (multiplier 4)
and then settled again with a second draw of red.  The second run leaves all
wagers, balances and transactions untouched, but re-draws and overwrites the
round's stored outcome and multiplier (violet/4 becomes red/2), so it is not
a no-op as the claim requires. -/
theorem C2_second_settlement_overwrites_outcome :
    roundResultIn (completeRound 2 wStore wRound) 1 = some "violet" ∧
    roundMultiplierIn (completeRound 2 wStore wRound) 1 = some 4 ∧
    roundResultIn (completeRound 0 (completeRound 2 wStore wRound) wRound) 1 =
      some "red" ∧
    roundMultiplierIn (completeRound 0 (completeRound 2 wStore wRound) wRound) 1 =
      some 2 ∧
    (completeRound 0 (completeRound 2 wStore wRound) wRound).users =
      (completeRound 2 wStore wRound).users ∧
    (completeRound 0 (completeRound 2 wStore wRound) wRound).bets =
      (completeRound 2 wStore wRound).bets ∧
    (completeRound 0 (completeRound 2 wStore wRound) wRound).transactions =
      (completeRound 2 wStore wRound).transactions :=
  ⟨rfl, rfl, rfl, rfl, rfl, rfl, rfl⟩

/-- C3 failing input: round 1 is administratively forced to violet (multiplier
4) while a pending violet wager exists; settlement then runs with a random
draw of red.  Settlement ignores the assigned outcome: it overwrites the
stored result with red, marks the matching violet wager lost, and credits
nothing — contradicting the claim that an already-assigned outcome is used. -/
theorem C3_forced_outcome_overwritten :
    roundResultIn (forceRound wStore 1 "violet" 4) 1 = some "violet" ∧
    roundResultIn
      (completeRound 0 (forceRound wStore 1 "violet" 4)
        { wRound with result := "violet", multiplier := 4 }) 1 = some "red" ∧
    betStatusIn
      (completeRound 0 (forceRound wStore 1 "violet" 4)
        { wRound with result := "violet", multiplier := 4 }) 1 = some "lost" ∧
    userBalanceIn
      (completeRound 0 (forceRound wStore 1 "violet" 4)
        { wRound with result := "violet", multiplier := 4 }) 1 = some 950 :=
  ⟨rfl, rfl, rfl, rfl⟩

/-- Counting rounds by an end-time predicate factors through the end-time
projection. -/
theorem countP_endTime (l : List GameRound) (c : Nat) :
    l.countP (fun r => decide (c < r.endTime)) =
      (l.map (fun r => r.endTime)).countP (fun e => decide (c < e)) := by
  rw [List.countP_map]
  rfl

/-- `createNewRound` appends one round ending `ROUND_DURATION_MS` after `now`
and leaves every other round's end time unchanged. -/
theorem createNewRound_endTimes (s : MemStorage) (t : Nat) (d : Fin 3) :
    ((createNewRound s t d).1).gameRounds.map (fun r => r.endTime) =
      s.gameRounds.map (fun r => r.endTime) ++ [t + ROUND_DURATION_MS] := by
  unfold createNewRound
  cases h : getActiveGameRound s t with
  | none =>
    simp only [h]
    rw [createGameRound_fst_gameRounds, List.map_append]
    rfl
  | some r =>
    simp only [h]
    rw [createGameRound_fst_gameRounds, List.map_append, completeRound_endTimes]
    rfl

/-- Steps that do not create rounds and do not shrink the clock preserve the
scheduler invariant. -/
theorem schedInv_time_step (store2 : MemStorage) (σ : SchedState) (t : Nat)
    (hmap : store2.gameRounds.map (fun r => r.endTime) =
      σ.store.gameRounds.map (fun r => r.endTime))
    (hct : σ.clock ≤ t) (hinv : schedInv σ) :
    schedInv ⟨store2, t, σ.lastCreate⟩ := by
  obtain ⟨h1, h2, h3⟩ := hinv
  refine ⟨?_, ?_, ?_⟩
  · intro hn
    have hz := h1 hn
    have hm : store2.gameRounds.map (fun r => r.endTime) = [] := by
      rw [hmap, hz]
      rfl
    exact List.map_eq_nil_iff.mp hm
  · intro u hu
    obtain ⟨huc, hbound⟩ := h2 u hu
    refine ⟨le_trans huc hct, ?_⟩
    intro r hr
    have hmem : r.endTime ∈ store2.gameRounds.map (fun r => r.endTime) :=
      List.mem_map_of_mem _ hr
    rw [hmap] at hmem
    rcases List.mem_map.mp hmem with ⟨r0, hr0, he⟩
    rw [← he]
    exact hbound r0 hr0
  · rw [countP_endTime, hmap, ← countP_endTime]
    refine le_trans (List.countP_mono_left ?_) h3
    intro r _ hp
    exact decide_eq_true (lt_of_le_of_lt hct (of_decide_eq_true hp))

/-- A `createNewRound` step, at least `ROUND_DURATION_MS` after the previous
one, preserves the scheduler invariant: all previously stored rounds end by
the step's instant, so the new round is the only one ending later. -/
theorem schedInv_create_step (σ : SchedState) (t : Nat) (d : Fin 3)
    (hct : σ.clock ≤ t)
    (hgap : ∀ u, σ.lastCreate = some u → u + ROUND_DURATION_MS ≤ t)
    (hinv : schedInv σ) :
    schedInv ⟨(createNewRound σ.store t d).1, t, some t⟩ := by
  obtain ⟨h1, h2, _⟩ := hinv
  have hm := createNewRound_endTimes σ.store t d
  have hold : ∀ e ∈ σ.store.gameRounds.map (fun r => r.endTime), e ≤ t := by
    intro e he
    rcases List.mem_map.mp he with ⟨r0, hr0, rfl⟩
    cases hlc : σ.lastCreate with
    | none =>
      rw [h1 hlc] at hr0
      exact absurd hr0 (List.not_mem_nil r0)
    | some u =>
      exact le_trans ((h2 u hlc).2 r0 hr0) (hgap u hlc)
  refine ⟨?_, ?_, ?_⟩
  · intro hn
    exact absurd hn (by simp)
  · intro u hu
    have hut : u = t := by
      injection hu with h
      exact h.symm
    subst hut
    refine ⟨le_refl u, ?_⟩
    intro r hr
    have hmem : r.endTime ∈ ((createNewRound σ.store u d).1).gameRounds.map
        (fun r => r.endTime) := List.mem_map_of_mem _ hr
    rw [hm] at hmem
    rcases List.mem_append.mp hmem with hL | hR
    · exact le_trans (hold _ hL) (Nat.le_add_right u _)
    · have he : r.endTime = u + ROUND_DURATION_MS := by simpa using hR
      exact le_of_eq he
  · rw [countP_endTime, hm, List.countP_append]
    have hz : (σ.store.gameRounds.map (fun r => r.endTime)).countP
        (fun e => decide (t < e)) = 0 := by
      rw [List.countP_eq_zero]
      intro e he hp
      exact absurd (of_decide_eq_true hp) (not_lt.mpr (hold e he))
    rw [hz]
    simp [ROUND_DURATION_MS]

/-- Every state reachable by the game engine satisfies the scheduler
invariant. -/
theorem reachable_schedInv (σ : SchedState) (h : ReachableSched σ) : schedInv σ := by
  induction h with
  | init s hs =>
    refine ⟨fun _ => hs, ?_, ?_⟩
    · intro _ hu
      exact absurd hu (by simp)
    · simp [hs]
  | step _ hstep ih =>
    cases hstep with
    | create t d hct hgap => exact schedInv_create_step _ t d hct hgap ih
    | timeout t d r hct =>
      exact schedInv_time_step _ _ t (completeRound_endTimes d _ r) hct ih
    | wager t uid input hct =>
      exact schedInv_time_step _ _ t (by rw [placeBet_gameRounds]) hct ih

/-- C8: in every state reachable by the scheduler's round-cycle step relation
(interleaved with timeouts and wager intake), at most one stored round is
open — undecided outcome with the current instant strictly before its end
time. -/
theorem C8_at_most_one_open_round (σ : SchedState) (h : ReachableSched σ) :
    σ.store.gameRounds.countP (openAt σ.clock) ≤ 1 := by
  refine le_trans (List.countP_mono_left ?_) (reachable_schedInv σ h).2.2
  intro r _ hp
  exact decide_eq_true (of_decide_eq_true hp).2

/-- C8 witness: the state after the initial `createNewRound` at instant 5 is
reachable and has at most one open round. -/
theorem C8_witness :
    ((createNewRound emptyStorage 5 0).1).gameRounds.countP (openAt 5) ≤ 1 :=
  C8_at_most_one_open_round ⟨(createNewRound emptyStorage 5 0).1, 5, some 5⟩
    (ReachableSched.step (ReachableSched.init emptyStorage rfl)
      (SchedStep.create ⟨emptyStorage, 0, none⟩ 5 0 (Nat.zero_le 5)
        (fun _ hu => Option.noConfusion hu)))

end ColorBet
